import Mathlib

/-!
Shallow embedding of the liveboard server (src/server.js) for verification
of its session registry, playback-state, command-validation, activity
tracker and credential-store logic.
-/

namespace Liveboard

/-! ## Session registry (server.js lines 344-351, 388-407, 522-544, 696-711)

The server keeps `connectedClients` (an array of client-info records) and a
separate integer counter `connectedClientsCount`.  The counter is
incremented on every `connection` event and decremented on every
`disconnect` event, while the array is updated by id lookup. -/

/-- Client classification: the server stores `'dashboard'` or `'external'`
in the `type` field (the spec calls dashboards "controller" sessions). -/
inductive ClientType where
  | dashboard
  | external
deriving DecidableEq

/-- One entry of the `connectedClients` array (server.js lines 392-398). -/
structure ClientInfo where
  id : String
  name : String
  ctype : ClientType
  ipAddress : String
  connectedAt : String
deriving DecidableEq

/-- The registry state: the `connectedClients` array and the
`connectedClientsCount` counter (server.js lines 345-346).  The counter is
an integer because the code can drive it below zero. -/
structure RegState where
  connectedClients : List ClientInfo
  connectedClientsCount : Int
deriving DecidableEq

/-- Initial registry state: empty array, zero counter. -/
def regInit : RegState := ⟨[], 0⟩

/-- `getExternalClients` (server.js lines 349-351): filter the client list
to entries whose `type` is `'external'`. -/
def getExternalClients (cs : List ClientInfo) : List ClientInfo :=
  cs.filter (fun c => c.ctype == ClientType.external)

/-- Boolean prefix test on character lists, used to model JavaScript
`String.prototype.startsWith`. -/
def startsWithChars : List Char → List Char → Bool
  | [], _ => true
  | _ :: _, [] => false
  | p :: ps, c :: cs => p == c && startsWithChars ps cs

/-- Role classification from the device name (server.js line 529):
`deviceName.startsWith('Dashboard') ? 'dashboard' : 'external'`. -/
def classify (deviceName : String) : ClientType :=
  if startsWithChars "Dashboard".data deviceName.data then ClientType.dashboard
  else ClientType.external

/-- `message.name || 'Unknown Device'` (server.js line 524): an absent or
empty (falsy) name falls back to the default. -/
def effectiveName : Option String → String
  | none => "Unknown Device"
  | some n => if n = "" then "Unknown Device" else n

/-- The identify handler's mutation of the client array (server.js lines
525-530): `find` locates the first entry with the socket's id and its
`name`/`type` fields are overwritten in place. -/
def identifyClients : List ClientInfo → String → String → List ClientInfo
  | [], _, _ => []
  | c :: cs, sid, dn =>
    if c.id = sid then
      { c with name := dn, ctype := classify dn } :: cs
    else
      c :: identifyClients cs sid dn

/-- The disconnect handler's mutation of the client array (server.js lines
700-702): `findIndex` + `splice(index, 1)` removes the first entry with the
socket's id, and removes nothing when the id is absent. -/
def removeFirstClient : List ClientInfo → String → List ClientInfo
  | [], _ => []
  | c :: cs, sid => if c.id = sid then cs else c :: removeFirstClient cs sid

/-- Registry events: a socket connecting, a socket sending an `identify`
message (with a possibly absent name), and a socket disconnecting. -/
inductive REvent where
  | connect (sid addr t : String)
  | identifyMsg (sid : String) (nm : Option String)
  | disconnect (sid : String)

/-- One step of the registry: the `connection` handler pushes a fresh
`'external'` entry named `"Unknown Device"` and increments the counter
(server.js lines 388-399); the identify handler rewrites the matching entry
(lines 522-530); the disconnect handler decrements the counter
unconditionally and then removes the matching entry if present (lines
696-711). -/
def applyEvent (s : RegState) : REvent → RegState
  | REvent.connect sid addr t =>
      { connectedClients := s.connectedClients ++ [⟨sid, "Unknown Device", ClientType.external, addr, t⟩],
        connectedClientsCount := s.connectedClientsCount + 1 }
  | REvent.identifyMsg sid nm =>
      { s with connectedClients := identifyClients s.connectedClients sid (effectiveName nm) }
  | REvent.disconnect sid =>
      { connectedClients := removeFirstClient s.connectedClients sid,
        connectedClientsCount := s.connectedClientsCount - 1 }

/-- Run a sequence of registry events. -/
def runEvents (s : RegState) : List REvent → RegState
  | [] => s
  | e :: es => runEvents (applyEvent s e) es

/-- Well-formedness of an event sequence with respect to the transport
(socket.io) contract: a `connection` event carries a fresh socket id, and a
`disconnect` event fires only for a currently connected socket (hence at
most once per connection). -/
def wfFrom (s : RegState) : List REvent → Bool
  | [] => true
  | e :: es =>
    (match e with
     | REvent.connect sid _ _ => s.connectedClients.all (fun c => decide (c.id ≠ sid))
     | REvent.identifyMsg _ _ => true
     | REvent.disconnect sid => s.connectedClients.any (fun c => c.id == sid))
    && wfFrom (applyEvent s e) es

/-! ## Controller-activity tracker (server.js lines 353-385) -/

/-- The activity tracker's state: `lastApiActivity` (a millisecond
timestamp, `null` before the first activity) and the `apiClientActive`
flag (server.js lines 354-355). -/
structure ActState where
  lastApiActivity : Option Nat
  apiClientActive : Bool
deriving DecidableEq

/-- Initial activity state: no activity recorded, inactive. -/
def actInit : ActState := ⟨none, false⟩

/-- `API_TIMEOUT = 60000` milliseconds (server.js line 356). -/
def API_TIMEOUT : Nat := 60000

/-- `updateApiActivity` (server.js lines 366-373): record the current time
and, only if previously inactive, flip to active and emit one
`api-client-status {active: true}` event.  The returned list holds the
`active` flags of the emitted events. -/
def updateApiActivity (now : Nat) (s : ActState) : ActState × List Bool :=
  if s.apiClientActive then
    ({ lastApiActivity := some now, apiClientActive := true }, [])
  else
    ({ lastApiActivity := some now, apiClientActive := true }, [true])

/-- One tick of the inactivity sweep (server.js lines 376-385): if the
client is active and `lastApiActivity` is truthy (non-null and non-zero)
and more than `API_TIMEOUT` has elapsed, flip to inactive and emit one
`api-client-status {active: false}` event. -/
def sweep (now : Nat) (s : ActState) : ActState × List Bool :=
  match s.lastApiActivity with
  | some t =>
    if s.apiClientActive && (t != 0) then
      if now - t > API_TIMEOUT then
        ({ s with apiClientActive := false }, [false])
      else (s, [])
    else (s, [])
  | none => (s, [])

/-- Run the sweep at each time in the list, collecting all emitted events. -/
def runSweeps : List Nat → ActState → ActState × List Bool
  | [], s => (s, [])
  | n :: ns, s =>
    let r := sweep n s
    let rest := runSweeps ns r.1
    (rest.1, r.2 ++ rest.2)

/-! ## YouTube reference validation (server.js lines 252-265)

`isValidYouTubeUrl` rejects strings longer than 500 and otherwise tests
four anchored regular expressions.  Each regex is a literal prefix
(scheme, optional `www.`, host/path) followed by an 11-character id of the
class `[a-zA-Z0-9_-]`; the watch form additionally allows `(&.*)?` before
the end anchor, where `.` excludes line terminators. -/

/-- The id character class `[a-zA-Z0-9_-]`. -/
def isIdChar (c : Char) : Bool := c.isAlpha || c.isDigit || c == '_' || c == '-'

/-- The characters matched by `.` in a JavaScript regex without the `s`
flag: everything except the four line terminators. -/
def isDotChar (c : Char) : Bool :=
  !(c == '\n' || c == '\r' || c == '\u2028' || c == '\u2029')

/-- Strip an exact literal from the front of a string, returning the rest. -/
def stripLit : List Char → List Char → Option (List Char)
  | [], s => some s
  | _ :: _, [] => none
  | p :: ps, c :: cs => if c = p then stripLit ps cs else none

/-- Consume exactly `n` id-class characters, returning the rest. -/
def readId : Nat → List Char → Option (List Char)
  | 0, s => some s
  | _ + 1, [] => none
  | n + 1, c :: cs => if isIdChar c then readId n cs else none

/-- Run a continuation on the remainder after a literal, failing if the
literal is not a prefix. -/
def tryStrip (lit s : List Char) (k : List Char → Bool) : Bool :=
  match stripLit lit s with
  | some r => k r
  | none => false

/-- Tail of the watch regex: eleven id characters then `(&.*)?$`. -/
def idTailAmp (s : List Char) : Bool :=
  match readId 11 s with
  | some r =>
    match r with
    | [] => true
    | c :: t => c == '&' && t.all isDotChar
  | none => false

/-- Eleven id characters then the end anchor. -/
def idTailEnd (s : List Char) : Bool :=
  match readId 11 s with
  | some [] => true
  | some (_ :: _) => false
  | none => false

/-- The watch regex after scheme and optional `www.`:
`youtube\.com/watch\?v=` then the id and optional query tail. -/
def watchCore (r : List Char) : Bool :=
  tryStrip "youtube.com/watch?v=".data r idTailAmp

/-- After the scheme of the watch regex: the alternation `(www\.)?`. -/
def watchAfterScheme (r : List Char) : Bool :=
  tryStrip "www.".data r watchCore || watchCore r

/-- `^https?:\/\/(www\.)?youtube\.com\/watch\?v=[a-zA-Z0-9_-]{11}(&.*)?$` -/
def matchWatch (s : List Char) : Bool :=
  tryStrip "https://".data s watchAfterScheme
  || tryStrip "http://".data s watchAfterScheme

/-- The short-link regex after the scheme: `youtu\.be/` then exactly the
id. -/
def shortCore (r : List Char) : Bool :=
  tryStrip "youtu.be/".data r idTailEnd

/-- `^https?:\/\/youtu\.be\/[a-zA-Z0-9_-]{11}$` -/
def matchShort (s : List Char) : Bool :=
  tryStrip "https://".data s shortCore
  || tryStrip "http://".data s shortCore

/-- The embed regex after scheme and optional `www.`:
`youtube\.com/embed/` then exactly the id. -/
def embedCore (r : List Char) : Bool :=
  tryStrip "youtube.com/embed/".data r idTailEnd

/-- After the scheme of the embed regex: the alternation `(www\.)?`. -/
def embedAfterScheme (r : List Char) : Bool :=
  tryStrip "www.".data r embedCore || embedCore r

/-- `^https?:\/\/(www\.)?youtube\.com\/embed\/[a-zA-Z0-9_-]{11}$` -/
def matchEmbed (s : List Char) : Bool :=
  tryStrip "https://".data s embedAfterScheme
  || tryStrip "http://".data s embedAfterScheme

/-- `^[a-zA-Z0-9_-]{11}$` -/
def matchBare (s : List Char) : Bool := idTailEnd s

/-- `isValidYouTubeUrl` (server.js lines 252-265): length guard, then the
four anchored patterns. -/
def isValidYouTubeUrl (u : String) : Bool :=
  if u.length > 500 then false
  else matchWatch u.data || matchShort u.data || matchEmbed u.data || matchBare u.data

/-- `POST /api/play` body handling (server.js lines 715-752): a falsy
(absent or empty) `url` is an error; an invalid reference is an error with
no broadcast; otherwise a `play-video` event carrying the url is emitted
to every session.  The result is (success, broadcast urls). -/
def apiPlay (url : Option String) : Bool × List String :=
  match url with
  | none => (false, [])
  | some u =>
    if u = "" then (false, [])
    else if isValidYouTubeUrl u = false then (false, [])
    else if u.length > 500 then (false, [])
    else (true, [u])

/-- Strict watch variant used only to state the claim's shape: the same
pattern with nothing allowed after the id (no `(&.*)?`). -/
def watchStrictCore (r : List Char) : Bool :=
  tryStrip "youtube.com/watch?v=".data r idTailEnd

/-- The strict watch alternation `(www\.)?`. -/
def watchStrictAfterScheme (r : List Char) : Bool :=
  tryStrip "www.".data r watchStrictCore || watchStrictCore r

/-- Strict watch matcher for the claim's shape. -/
def matchWatchStrict (s : List Char) : Bool :=
  tryStrip "https://".data s watchStrictAfterScheme
  || tryStrip "http://".data s watchStrictAfterScheme

/-- An 11-character token of the id class. -/
def IdList (id : List Char) : Prop :=
  id.length = 11 ∧ ∀ c ∈ id, isIdChar c = true

/-- The claim's watch shape, stated from the spec's words: a full
watch-URL whose `v` query parameter is an 11-character id of the class
`[a-zA-Z0-9_-]` and nothing else in the query. -/
def SpecWatchStrict (s : List Char) : Prop :=
  ∃ sch w id, (sch = "https://".data ∨ sch = "http://".data) ∧
    (w = "www.".data ∨ w = []) ∧ IdList id ∧
    s = sch ++ (w ++ ("youtube.com/watch?v=".data ++ id))

/-- The watch shape the code actually accepts: as `SpecWatchStrict`, but
the id may be followed by `&` and arbitrary further query text containing
no line terminator. -/
def SpecWatchAmp (s : List Char) : Prop :=
  ∃ sch w id q, (sch = "https://".data ∨ sch = "http://".data) ∧
    (w = "www.".data ∨ w = []) ∧ IdList id ∧
    (q = [] ∨ ∃ t, q = '&' :: t ∧ ∀ c ∈ t, isDotChar c = true) ∧
    s = sch ++ (w ++ ("youtube.com/watch?v=".data ++ (id ++ q)))

/-- The claim's short-link shape: `youtu.be/` followed by an id. -/
def SpecShort (s : List Char) : Prop :=
  ∃ sch id, (sch = "https://".data ∨ sch = "http://".data) ∧ IdList id ∧
    s = sch ++ ("youtu.be/".data ++ id)

/-- The claim's embed-path shape. -/
def SpecEmbed (s : List Char) : Prop :=
  ∃ sch w id, (sch = "https://".data ∨ sch = "http://".data) ∧
    (w = "www.".data ∨ w = []) ∧ IdList id ∧
    s = sch ++ (w ++ ("youtube.com/embed/".data ++ id))

/-- The claim's bare-id shape. -/
def SpecBare (s : List Char) : Prop := IdList s

/-- The four shapes exactly as the claim states them (no length cap, no
extra query text on the watch form). -/
def ClaimedStrict (u : String) : Prop :=
  SpecWatchStrict u.data ∨ SpecShort u.data ∨ SpecEmbed u.data ∨ SpecBare u.data

/-- The amended four shapes: as claimed, except that the watch form may
carry further `&`-separated query text and the total length is capped at
500 characters. -/
def ClaimedAmended (u : String) : Prop :=
  u.length ≤ 500 ∧
    (SpecWatchAmp u.data ∨ SpecShort u.data ∨ SpecEmbed u.data ∨ SpecBare u.data)

/-! ## Shared playback state and volume validation
(server.js lines 358-363, 547-587, 647-655, 856-876)

Volume payloads are JavaScript numbers, compared with `<`, `>`, `>=`,
`<=`.  Every comparison involving `NaN` is false, which matters because
the REST endpoint validates with `level < 0 || level > 100`. -/

/-- A JavaScript number: a finite value (modelled as a rational), `NaN`,
`Infinity` or `-Infinity`.  No arithmetic is performed on volume values,
only comparisons, so this embedding is exact for the code at hand. -/
inductive JsNum where
  | num (q : ℚ)
  | nan
  | inf
  | ninf
deriving DecidableEq

/-- JavaScript `<` on numbers: false whenever `NaN` is involved. -/
def jsLt : JsNum → JsNum → Bool
  | JsNum.nan, _ => false
  | _, JsNum.nan => false
  | JsNum.num a, JsNum.num b => decide (a < b)
  | JsNum.num _, JsNum.inf => true
  | JsNum.num _, JsNum.ninf => false
  | JsNum.inf, _ => false
  | JsNum.ninf, JsNum.ninf => false
  | JsNum.ninf, _ => true

/-- JavaScript `<=` on numbers: false whenever `NaN` is involved. -/
def jsLe : JsNum → JsNum → Bool
  | JsNum.nan, _ => false
  | _, JsNum.nan => false
  | JsNum.num a, JsNum.num b => decide (a ≤ b)
  | JsNum.num _, JsNum.inf => true
  | JsNum.num _, JsNum.ninf => false
  | JsNum.inf, JsNum.inf => true
  | JsNum.inf, _ => false
  | JsNum.ninf, _ => true

/-- JavaScript `>` on numbers. -/
def jsGt (a b : JsNum) : Bool := jsLt b a

/-- JavaScript `>=` on numbers. -/
def jsGe (a b : JsNum) : Bool := jsLe b a

/-- A JSON/JavaScript value as far as the handlers inspect one: `typeof`
distinguishes numbers and strings; everything else is only ever compared
or rejected. -/
inductive JVal where
  | jnum (x : JsNum)
  | jstr (s : String)
  | jbool (b : Bool)
  | jnull
  | jundef
deriving DecidableEq

/-- `dashboardState` (server.js lines 359-363). -/
structure DashState where
  volume : JsNum
  playbackStatus : String
  currentVideoTitle : String
deriving DecidableEq

/-- The initial `dashboardState`: volume 100, `'stopped'`, placeholder
title. -/
def dashInit : DashState :=
  { volume := JsNum.num 100, playbackStatus := "stopped",
    currentVideoTitle := "No video loaded" }

/-- Result of a volume operation: the new shared state, the volume values
broadcast, and whether the request was accepted. -/
structure VolResult where
  state : DashState
  events : List JsNum
  ok : Bool
deriving DecidableEq

/-- `POST /api/volume` (server.js lines 856-876): reject unless `level` is
a number and neither `level < 0` nor `level > 100`; on success store the
level and broadcast one `control-volume` event carrying it. -/
def apiVolume (st : DashState) (level : JVal) : VolResult :=
  match level with
  | JVal.jnum x =>
    if jsLt x (JsNum.num 0) || jsGt x (JsNum.num 100) then ⟨st, [], false⟩
    else ⟨{ st with volume := x }, [x], true⟩
  | _ => ⟨st, [], false⟩

/-- The socket `volume` command (server.js lines 647-655): accept only if
the value is a number with `value >= 0 && value <= 100`; on success store
it and broadcast one `control-volume` event. -/
def commandVolume (st : DashState) (v : JVal) : VolResult :=
  match v with
  | JVal.jnum x =>
    if jsGe x (JsNum.num 0) && jsLe x (JsNum.num 100) then
      ⟨{ st with volume := x }, [x], true⟩
    else ⟨st, [], false⟩
  | _ => ⟨st, [], false⟩

/-- The `volume_update` message from the dashboard (server.js lines
547-558): same validation as the socket command; on success store the
value and broadcast one `state-volume-changed` event. -/
def volumeUpdate (st : DashState) (v : JVal) : DashState × List JsNum :=
  match v with
  | JVal.jnum x =>
    if jsGe x (JsNum.num 0) && jsLe x (JsNum.num 100) then
      ({ st with volume := x }, [x])
    else (st, [])
  | _ => (st, [])

/-- The `status_update` message (server.js lines 561-573): accept only the
three enumerated statuses. -/
def statusUpdate (st : DashState) (v : JVal) : DashState × List String :=
  match v with
  | JVal.jstr s =>
    if ["playing", "paused", "stopped"].contains s then
      ({ st with playbackStatus := s }, [s])
    else (st, [])
  | _ => (st, [])

/-- The `title_update` message (server.js lines 576-587): accept any
string. -/
def titleUpdate (st : DashState) (v : JVal) : DashState × List String :=
  match v with
  | JVal.jstr s => ({ st with currentVideoTitle := s }, [s])
  | _ => (st, [])

/-- The claim's notion of a volume in range: a finite number `v` with
`0 ≤ v ≤ 100`.  `NaN` and the infinities are not in range. -/
def volInRange (x : JsNum) : Bool :=
  match x with
  | JsNum.num q => decide (0 ≤ q) && decide (q ≤ 100)
  | _ => false

/-- The SharedPlaybackState invariant of the spec: volume in `[0,100]` and
a playback status among the three enumerated values. -/
def dashInv (st : DashState) : Bool :=
  volInRange st.volume && ["playing", "paused", "stopped"].contains st.playbackStatus

/-! ## Credential store (server.js lines 133-187, 1036-1131, 1154-1271)

The persisted key file holds records `{id, name, key, createdAt}`; the
environment variable `API_KEYS` holds a comma-separated token list.
`getAllApiKeys` merges and deduplicates the two sources. -/

/-- One persisted credential record (server.js lines 1050-1055). -/
structure KeyRecord where
  id : String
  name : String
  key : String
  createdAt : String
deriving DecidableEq

/-- The credential store: the raw environment string and the persisted
record list. -/
structure CredStore where
  envRaw : String
  fileKeys : List KeyRecord
deriving DecidableEq

/-- Whitespace for trimming. -/
def isWs (c : Char) : Bool := c == ' ' || c == '\t' || c == '\n' || c == '\r'

/-- Trim whitespace from both ends, modelling JavaScript `trim()`. -/
def trimChars (l : List Char) : List Char :=
  ((l.dropWhile isWs).reverse.dropWhile isWs).reverse

/-- String-level trim. -/
def trimS (s : String) : String := String.mk (trimChars s.data)

/-- Split on commas, modelling JavaScript `split(',')` (an empty string
yields one empty field). -/
def splitComma : List Char → List (List Char)
  | [] => [[]]
  | c :: cs =>
    match splitComma cs with
    | [] => if c = ',' then [[], []] else [[c]]
    | h :: t => if c = ',' then [] :: h :: t else (c :: h) :: t

/-- Parse the `API_KEYS` environment variable (server.js lines 163-166):
split on commas, trim each entry, drop empties. -/
def parseEnvKeys (envRaw : String) : List String :=
  (((splitComma envRaw.data).map trimChars).map String.mk).filter
    (fun k => k.length > 0)

/-- First-occurrence deduplication, modelling `[...new Set(list)]`. -/
def dedupAux (seen : List String) : List String → List String
  | [] => []
  | x :: xs =>
    if seen.contains x then dedupAux seen xs
    else x :: dedupAux (x :: seen) xs

/-- `[...new Set(list)]`. -/
def dedup (l : List String) : List String := dedupAux [] l

/-- `getAllApiKeys` (server.js lines 161-173): env tokens then file
tokens, deduplicated. -/
def getAllApiKeys (st : CredStore) : List String :=
  dedup (parseEnvKeys st.envRaw ++ st.fileKeys.map (fun r => r.key))

/-- `POST /api/admin/keys` (server.js lines 1036-1072): append a record
holding a freshly generated token (the random id/key/timestamp arrive here
as parameters) with the trimmed name, and persist. -/
def createKey (st : CredStore) (id name key createdAt : String) : CredStore :=
  { st with fileKeys := st.fileKeys ++ [⟨id, trimS name, key, createdAt⟩] }

/-- Remove the first record with a given id, if any (`findIndex` +
`splice(index, 1)`). -/
def removeFirstKeyById : List KeyRecord → String → List KeyRecord
  | [], _ => []
  | r :: rs, i => if r.id = i then rs else r :: removeFirstKeyById rs i

/-- Deletion by id (server.js lines 1105-1131 and 1164-1190): 404 when no
record has the id, otherwise remove the first matching record and persist.
Returns the new store and whether a record was deleted. -/
def deleteKey (st : CredStore) (kid : String) : CredStore × Bool :=
  if st.fileKeys.any (fun r => r.id == kid) then
    ({ st with fileKeys := removeFirstKeyById st.fileKeys kid }, true)
  else (st, false)

/-- Rename the first record with a given id, returning `none` when absent. -/
def renameFirstById : List KeyRecord → String → String → Option (List KeyRecord)
  | [], _, _ => none
  | r :: rs, i, nm =>
    if r.id = i then some ({ r with name := nm } :: rs)
    else (renameFirstById rs i nm).map (fun l => r :: l)

/-- Outcome of `PATCH /api/keys/:keyId`. -/
inductive RenameResult where
  | invalidInput
  | notFound
  | renamed
deriving DecidableEq

/-- `PATCH /api/keys/:keyId` (server.js lines 1193-1227): 400 when the
name is falsy or empty after trimming, 404 when no record has the id, and
otherwise the matching record's name becomes the trimmed name. -/
def renameKey (st : CredStore) (keyId name : String) : CredStore × RenameResult :=
  if trimS name = "" then (st, RenameResult.invalidInput)
  else
    match renameFirstById st.fileKeys keyId (trimS name) with
    | none => (st, RenameResult.notFound)
    | some l => ({ st with fileKeys := l }, RenameResult.renamed)

/-- `GET /api/keys/list` (server.js lines 1154-1161): return the persisted
records verbatim.  The handler receives the `X-API-Key` header value but
never reads it. -/
def keysListHandler (st : CredStore) (_apiKeyHeader : Option String) : List KeyRecord :=
  st.fileKeys

/-- `DELETE /api/keys/:keyId` (server.js lines 1164-1190): same deletion
logic as the admin endpoint, with the `X-API-Key` header value ignored. -/
def keysDeleteHandler (st : CredStore) (_apiKeyHeader : Option String)
    (keyId : String) : CredStore × Bool :=
  deleteKey st keyId

/-! ## Registry lemmas -/

theorem length_identifyClients (cs : List ClientInfo) (sid dn : String) :
    (identifyClients cs sid dn).length = cs.length := by
  induction cs with
  | nil => rfl
  | cons c cs ih => by_cases h : c.id = sid <;> simp [identifyClients, h, ih]

theorem length_removeFirstClient (cs : List ClientInfo) (sid : String)
    (h : ∃ c ∈ cs, c.id = sid) :
    (removeFirstClient cs sid).length + 1 = cs.length := by
  induction cs with
  | nil => simp at h
  | cons c cs ih =>
    by_cases hc : c.id = sid
    · simp [removeFirstClient, hc]
    · obtain ⟨d, hd, hdid⟩ := h
      rcases List.mem_cons.mp hd with hdc | hdcs
      · exact absurd hdid (hdc ▸ hc)
      · simp [removeFirstClient, hc]
        exact ih ⟨d, hdcs, hdid⟩

theorem removeFirstClient_of_absent (cs : List ClientInfo) (sid : String)
    (h : ∀ c ∈ cs, c.id ≠ sid) :
    removeFirstClient cs sid = cs := by
  induction cs with
  | nil => rfl
  | cons c cs ih =>
    simp only [List.mem_cons] at h
    have hc : c.id ≠ sid := h c (Or.inl rfl)
    simp [removeFirstClient, hc]
    exact ih fun d hd => h d (Or.inr hd)

theorem identifyClients_of_absent (cs : List ClientInfo) (sid dn : String)
    (h : ∀ c ∈ cs, c.id ≠ sid) :
    identifyClients cs sid dn = cs := by
  induction cs with
  | nil => rfl
  | cons c cs ih =>
    have hc : c.id ≠ sid := h c (List.mem_cons_self c cs)
    simp [identifyClients, hc]
    exact ih fun d hd => h d (List.mem_cons_of_mem c hd)

theorem identifyClients_eq_map (cs : List ClientInfo) (sid dn : String)
    (hnd : (cs.map ClientInfo.id).Nodup) :
    identifyClients cs sid dn
      = cs.map (fun c =>
          if c.id = sid then { c with name := dn, ctype := classify dn } else c) := by
  induction cs with
  | nil => rfl
  | cons c cs ih =>
    simp only [List.map_cons, List.nodup_cons] at hnd
    obtain ⟨hnotin, hnd⟩ := hnd
    by_cases hc : c.id = sid
    · simp only [identifyClients, hc, if_pos rfl, List.map_cons, if_true]
      simp only [hc] at hnotin
      have : ∀ d ∈ cs,
          (if d.id = sid then { d with name := dn, ctype := classify dn } else d) = d := by
        intro d hd
        have : d.id ≠ sid := fun he => hnotin (he ▸ List.mem_map_of_mem ClientInfo.id hd)
        simp [this]
      rw [List.map_congr_left this, List.map_id']
    · simp [identifyClients, hc, ih hnd]

theorem getExternal_map_dashboard (cs : List ClientInfo) (sid dn : String)
    (hdn : classify dn = ClientType.dashboard) :
    getExternalClients (cs.map (fun c =>
        if c.id = sid then { c with name := dn, ctype := classify dn } else c))
      = getExternalClients (cs.filter (fun c => !(c.id == sid))) := by
  unfold getExternalClients
  simp only [hdn]
  induction cs with
  | nil => rfl
  | cons c cs ih =>
    rw [List.filter_filter] at ih
    by_cases hc : c.id = sid
    · simp [hc]
      exact ih
    · by_cases he : c.ctype = ClientType.external
      · simp [hc, he]
        exact ih
      · simp [hc, he]
        exact ih

theorem startsDashboard_ne_empty (n : String)
    (h : startsWithChars "Dashboard".data n.data = true) : n ≠ "" := by
  intro he
  subst he
  exact absurd h (by decide)

/-! ## Claim theorems: session registry -/

/-- Claim C1: over every transport-well-formed sequence of connect,
identify and disconnect events, the `connectedClientsCount` counter equals
the number of registered sessions, and the external view's length equals
the number of registered sessions typed `'external'`, at every point
(any prefix of a well-formed sequence is well-formed, so the statement
holds immediately after each mutating call). -/
theorem C1_registry_counts (s : RegState) (es : List REvent)
    (hwf : wfFrom s es = true)
    (hc : s.connectedClientsCount = (s.connectedClients.length : Int)) :
    (runEvents s es).connectedClientsCount
        = ((runEvents s es).connectedClients.length : Int)
    ∧ (getExternalClients (runEvents s es).connectedClients).length
        = (runEvents s es).connectedClients.countP
            (fun c => c.ctype == ClientType.external) := by
  refine ⟨?_, ((runEvents s es).connectedClients.countP_eq_length_filter _).symm⟩
  induction es generalizing s with
  | nil => exact hc
  | cons e es ih =>
    simp only [wfFrom, Bool.and_eq_true] at hwf
    obtain ⟨hstep, hrest⟩ := hwf
    refine ih (applyEvent s e) hrest ?_
    cases e with
    | connect sid addr t =>
      simp only [applyEvent, List.length_append, List.length_cons, List.length_nil]
      rw [hc]
      push_cast
      ring
    | identifyMsg sid nm =>
      simpa only [applyEvent, length_identifyClients] using hc
    | disconnect sid =>
      obtain ⟨c, hcmem, hcid⟩ := List.any_eq_true.mp hstep
      have hlen := length_removeFirstClient s.connectedClients sid
        ⟨c, hcmem, eq_of_beq hcid⟩
      simp only [applyEvent]
      rw [hc, ← hlen]
      push_cast
      ring

/-- Witness for C1 at a concrete well-formed event sequence. -/
theorem C1_registry_counts_witness :
    (runEvents regInit
        [REvent.connect "A" "1.2.3.4" "t0", REvent.connect "B" "5.6.7.8" "t1",
         REvent.identifyMsg "A" (some "Dashboard-1"),
         REvent.disconnect "B"]).connectedClientsCount
      = ((runEvents regInit
        [REvent.connect "A" "1.2.3.4" "t0", REvent.connect "B" "5.6.7.8" "t1",
         REvent.identifyMsg "A" (some "Dashboard-1"),
         REvent.disconnect "B"]).connectedClients.length : Int)
    ∧ (getExternalClients (runEvents regInit
        [REvent.connect "A" "1.2.3.4" "t0", REvent.connect "B" "5.6.7.8" "t1",
         REvent.identifyMsg "A" (some "Dashboard-1"),
         REvent.disconnect "B"]).connectedClients).length
      = (runEvents regInit
        [REvent.connect "A" "1.2.3.4" "t0", REvent.connect "B" "5.6.7.8" "t1",
         REvent.identifyMsg "A" (some "Dashboard-1"),
         REvent.disconnect "B"]).connectedClients.countP
          (fun c => c.ctype == ClientType.external) :=
  C1_registry_counts regInit
    [REvent.connect "A" "1.2.3.4" "t0", REvent.connect "B" "5.6.7.8" "t1",
     REvent.identifyMsg "A" (some "Dashboard-1"), REvent.disconnect "B"]
    (by decide) (by decide)

/-- A two-client registry used to exercise the identify handler on
concrete inputs. -/
def regTwo : RegState :=
  ⟨[⟨"A", "Unknown Device", ClientType.external, "1.2.3.4", "t0"⟩,
    ⟨"B", "Unknown Device", ClientType.external, "5.6.7.8", "t1"⟩], 2⟩

/-- Claim C2 as stated is false: an identify message whose proposed name is
the empty string does not set the session's displayName to that name — the
falsy-name fallback stores `"Unknown Device"` instead. -/
theorem C2_identify_counterexample :
    ((applyEvent regTwo (REvent.identifyMsg "A" (some ""))).connectedClients.map
        ClientInfo.name) ≠ ["", "Unknown Device"]
    ∧ ((applyEvent regTwo (REvent.identifyMsg "A" (some ""))).connectedClients.map
        ClientInfo.name) = ["Unknown Device", "Unknown Device"] := by
  constructor
  · decide
  · decide

/-- Claim C2, amended: identify with a nonempty proposed name `n` updates
exactly the matching session, setting its displayName to `n` and its role
to `'dashboard'` (controller) iff `n` starts with the literal prefix
`"Dashboard"`; after a Dashboard-identify the external view omits that
session and keeps every other session unchanged; identify for an
unregistered id leaves the registry unchanged; identify with an empty
proposed name behaves as if the name were `"Unknown Device"`. -/
theorem C2_identify_amended (s : RegState) (sid n : String) (nm : Option String)
    (hnd : (s.connectedClients.map ClientInfo.id).Nodup) :
    (n ≠ "" →
      applyEvent s (REvent.identifyMsg sid (some n))
        = { s with connectedClients :=
              s.connectedClients.map (fun c =>
                if c.id = sid then { c with name := n, ctype := classify n } else c) })
    ∧ (classify n = ClientType.dashboard
        ↔ startsWithChars "Dashboard".data n.data = true)
    ∧ (startsWithChars "Dashboard".data n.data = true →
        getExternalClients
            (applyEvent s (REvent.identifyMsg sid (some n))).connectedClients
          = getExternalClients (s.connectedClients.filter (fun c => !(c.id == sid))))
    ∧ ((∀ c ∈ s.connectedClients, c.id ≠ sid) →
        applyEvent s (REvent.identifyMsg sid nm) = s)
    ∧ (applyEvent s (REvent.identifyMsg sid (some ""))
        = applyEvent s (REvent.identifyMsg sid (some "Unknown Device"))) := by
  have hmap : ∀ m : String, m ≠ "" →
      applyEvent s (REvent.identifyMsg sid (some m))
        = { s with connectedClients :=
              s.connectedClients.map (fun c =>
                if c.id = sid then { c with name := m, ctype := classify m } else c) } := by
    intro m hm
    have heff : effectiveName (some m) = m := by simp [effectiveName, hm]
    simp only [applyEvent, heff]
    rw [identifyClients_eq_map s.connectedClients sid m hnd]
  refine ⟨hmap n, ?_, ?_, ?_, ?_⟩
  · unfold classify
    by_cases h : startsWithChars "Dashboard".data n.data = true
    · simp [h]
    · simp [h]
  · intro hdash
    have hne := startsDashboard_ne_empty n hdash
    have hcl : classify n = ClientType.dashboard := by simp [classify, hdash]
    rw [hmap n hne]
    exact getExternal_map_dashboard s.connectedClients sid n hcl
  · intro habs
    simp only [applyEvent]
    rw [identifyClients_of_absent s.connectedClients sid _ habs]
  · simp only [applyEvent]
    have : effectiveName (some "") = effectiveName (some "Unknown Device") := by decide
    rw [this]

/-- Witness for the amended C2 at a concrete registry: session A becomes a
dashboard and the external view afterwards contains exactly session B. -/
theorem C2_identify_amended_witness :
    getExternalClients
        ((applyEvent regTwo (REvent.identifyMsg "A" (some "Dashboard-1"))).connectedClients)
      = getExternalClients (regTwo.connectedClients.filter (fun c => !(c.id == "A"))) :=
  (C2_identify_amended regTwo "A" "Dashboard-1" none (by decide)).2.2.1 (by decide)

/-- Claim C3 as stated is false: after connect A / disconnect A, a second
disconnect for A leaves the client list empty but still decrements the
counter, so the registry state changes (the count drops from 0 to -1). -/
theorem C3_unregister_counterexample :
    (runEvents regInit
        [REvent.connect "A" "1.2.3.4" "t0", REvent.disconnect "A",
         REvent.disconnect "A"]).connectedClientsCount = -1
    ∧ (runEvents regInit
        [REvent.connect "A" "1.2.3.4" "t0",
         REvent.disconnect "A"]).connectedClientsCount = 0
    ∧ runEvents regInit
        [REvent.connect "A" "1.2.3.4" "t0", REvent.disconnect "A",
         REvent.disconnect "A"]
      ≠ runEvents regInit
        [REvent.connect "A" "1.2.3.4" "t0", REvent.disconnect "A"] := by
  refine ⟨by decide, by decide, by decide⟩

/-- Claim C3, amended: a disconnect for an id that is not registered (in
particular, a second disconnect with the same id) never throws and leaves
the client list unchanged, but it still decrements the connected-client
counter by one. -/
theorem C3_unregister_amended (s : RegState) (sid : String)
    (h : ∀ c ∈ s.connectedClients, c.id ≠ sid) :
    (applyEvent s (REvent.disconnect sid)).connectedClients = s.connectedClients
    ∧ (applyEvent s (REvent.disconnect sid)).connectedClientsCount
        = s.connectedClientsCount - 1 :=
  ⟨by simp only [applyEvent]; exact removeFirstClient_of_absent s.connectedClients sid h,
   rfl⟩

/-- Witness for the amended C3 at the concrete double-disconnect state. -/
theorem C3_unregister_amended_witness :
    (applyEvent ⟨[], 0⟩ (REvent.disconnect "A")).connectedClients
        = (⟨[], 0⟩ : RegState).connectedClients
    ∧ (applyEvent ⟨[], 0⟩ (REvent.disconnect "A")).connectedClientsCount
        = (⟨[], 0⟩ : RegState).connectedClientsCount - 1 :=
  C3_unregister_amended ⟨[], 0⟩ "A" (by simp)

/-! ## Claim theorems: playback state and volume (C5, C6) -/

/-- Claim C5 meets a code bug: the REST volume validation
`level < 0 || level > 100` accepts `NaN` (both comparisons are false), so
the endpoint stores `NaN` into SharedPlaybackState and broadcasts it, even
though `NaN` is not a number satisfying `0 ≤ v ≤ 100`; the socket `volume`
command's `value >= 0 && value <= 100` check rejects the same input. -/
theorem C5_volume_nan_code_bug :
    (apiVolume dashInit (JVal.jnum JsNum.nan)).ok = true
    ∧ (apiVolume dashInit (JVal.jnum JsNum.nan)).state.volume = JsNum.nan
    ∧ (apiVolume dashInit (JVal.jnum JsNum.nan)).events = [JsNum.nan]
    ∧ volInRange JsNum.nan = false
    ∧ (commandVolume dashInit (JVal.jnum JsNum.nan)).ok = false
    ∧ (commandVolume dashInit (JVal.jnum JsNum.nan)).state = dashInit := by
  refine ⟨by decide, by decide, by decide, by decide, by decide, by decide⟩

/-- Claim C6 meets the same code bug: the initial SharedPlaybackState
satisfies the invariant (volume in [0,100], status enumerated), but the
REST volume operation with `NaN` yields a state that violates it. -/
theorem C6_invariant_nan_code_bug :
    dashInv dashInit = true
    ∧ dashInv (apiVolume dashInit (JVal.jnum JsNum.nan)).state = false := by
  exact ⟨by decide, by decide⟩

/-! ## Claim theorems: controller-activity transitions (C7) -/

/-- Claim C7: `updateApiActivity` emits an `active: true` event exactly
when the tracker was previously inactive (and nothing on repeated calls
while active), and once the activity timeout has elapsed a whole run of
sweep ticks emits exactly one `active: false` event, not one per tick. -/
theorem C7_activity_single_transition (s sw : ActState) (now t : Nat)
    (ts : List Nat)
    (h1 : sw.apiClientActive = true) (h2 : sw.lastApiActivity = some t)
    (h3 : t ≠ 0) (h4 : ts ≠ [])
    (h5 : ∀ n ∈ ts, n - t > API_TIMEOUT) :
    ((updateApiActivity now s).2 = if s.apiClientActive then [] else [true])
    ∧ (runSweeps ts sw).2 = [false] := by
  constructor
  · unfold updateApiActivity
    by_cases h : s.apiClientActive <;> simp [h]
  · cases ts with
    | nil => exact absurd rfl h4
    | cons n ns =>
      have hstep : sweep n sw = ({ sw with apiClientActive := false }, [false]) := by
        unfold sweep
        rw [h2]
        simp [h1, h3, h5 n (List.mem_cons_self n ns)]
      have hinact : ∀ (ms : List Nat) (s0 : ActState), s0.apiClientActive = false →
          runSweeps ms s0 = (s0, []) := by
        intro ms
        induction ms with
        | nil => intro s0 _; rfl
        | cons m ms ih =>
          intro s0 h0
          have hsw : sweep m s0 = (s0, []) := by
            unfold sweep
            cases hl : s0.lastApiActivity with
            | none => rfl
            | some u => simp [h0]
          simp [runSweeps, hsw, ih s0 h0]
      simp [runSweeps, hstep,
        hinact ns { sw with apiClientActive := false } rfl]

/-- Witness for C7: a first activity call on the initial state emits the
`true` event, and a late sweep run over an active state emits exactly one
`false` event. -/
theorem C7_activity_single_transition_witness :
    ((updateApiActivity 5 actInit).2
        = if actInit.apiClientActive then [] else [true])
    ∧ (runSweeps [70002, 80002] ⟨some 1, true⟩).2 = [false] :=
  C7_activity_single_transition actInit ⟨some 1, true⟩ 5 1 [70002, 80002]
    rfl rfl (by decide) (by decide) (by decide)

/-! ## Claim theorems: credential endpoints without authentication (C10) -/

/-- Claim C10: `GET /api/keys/list` and `DELETE /api/keys/:keyId` never
read the `X-API-Key` header, so any two requests differing only in that
header produce identical results, and the list response returns every
persisted record verbatim, raw secret token included. -/
theorem C10_keys_endpoints_unauthenticated (st : CredStore)
    (h1 h2 : Option String) (kid : String) (r : KeyRecord)
    (hr : r ∈ st.fileKeys) :
    keysListHandler st h1 = keysListHandler st h2
    ∧ keysDeleteHandler st h1 kid = keysDeleteHandler st h2 kid
    ∧ keysListHandler st h1 = st.fileKeys
    ∧ r.key ∈ (keysListHandler st h1).map KeyRecord.key :=
  ⟨rfl, rfl, rfl, List.mem_map_of_mem KeyRecord.key hr⟩

/-- Witness for C10 on a concrete store: an invalid key header and a
missing header give the same responses, and the stored secret appears in
the list response. -/
theorem C10_keys_endpoints_unauthenticated_witness :
    keysListHandler ⟨"", [⟨"id1", "n", "secret-token", "t"⟩]⟩ (some "WRONG")
        = keysListHandler ⟨"", [⟨"id1", "n", "secret-token", "t"⟩]⟩ none
    ∧ keysDeleteHandler ⟨"", [⟨"id1", "n", "secret-token", "t"⟩]⟩ (some "WRONG") "id1"
        = keysDeleteHandler ⟨"", [⟨"id1", "n", "secret-token", "t"⟩]⟩ none "id1"
    ∧ keysListHandler ⟨"", [⟨"id1", "n", "secret-token", "t"⟩]⟩ (some "WRONG")
        = (⟨"", [⟨"id1", "n", "secret-token", "t"⟩]⟩ : CredStore).fileKeys
    ∧ (⟨"id1", "n", "secret-token", "t"⟩ : KeyRecord).key
        ∈ (keysListHandler ⟨"", [⟨"id1", "n", "secret-token", "t"⟩]⟩ (some "WRONG")).map
            KeyRecord.key :=
  C10_keys_endpoints_unauthenticated ⟨"", [⟨"id1", "n", "secret-token", "t"⟩]⟩
    (some "WRONG") none "id1" ⟨"id1", "n", "secret-token", "t"⟩ (by decide)

/-! ## Credential-store lemmas -/

theorem mem_dedupAux (a : String) (l : List String) : ∀ seen : List String,
    a ∈ dedupAux seen l ↔ (a ∈ l ∧ a ∉ seen) := by
  induction l with
  | nil => intro seen; simp [dedupAux]
  | cons x xs ih =>
    intro seen
    by_cases hx : seen.contains x
    · rw [dedupAux, if_pos hx, ih seen]
      constructor
      · rintro ⟨h1, h2⟩
        exact ⟨List.mem_cons_of_mem x h1, h2⟩
      · rintro ⟨h1, h2⟩
        rcases List.mem_cons.mp h1 with h | h
        · exact absurd (h ▸ List.elem_iff.mp hx) h2
        · exact ⟨h, h2⟩
    · rw [dedupAux, if_neg hx, List.mem_cons, ih (x :: seen)]
      constructor
      · rintro (h | ⟨h1, h2⟩)
        · subst h
          exact ⟨List.mem_cons_self a xs, fun hs => hx (List.elem_iff.mpr hs)⟩
        · exact ⟨List.mem_cons_of_mem x h1,
            fun hs => h2 (List.mem_cons_of_mem x hs)⟩
      · rintro ⟨h1, h2⟩
        by_cases hax : a = x
        · exact Or.inl hax
        · rcases List.mem_cons.mp h1 with h | h
          · exact absurd h hax
          · refine Or.inr ⟨h, fun hs => ?_⟩
            rcases List.mem_cons.mp hs with h3 | h3
            · exact hax h3
            · exact h2 h3

theorem nodup_dedupAux (l : List String) : ∀ seen : List String,
    (dedupAux seen l).Nodup := by
  induction l with
  | nil => intro seen; simp [dedupAux]
  | cons x xs ih =>
    intro seen
    by_cases hx : seen.contains x
    · rw [dedupAux, if_pos hx]
      exact ih seen
    · rw [dedupAux, if_neg hx]
      refine List.nodup_cons.mpr ⟨fun hmem => ?_, ih (x :: seen)⟩
      exact ((mem_dedupAux x xs (x :: seen)).mp hmem).2 (List.mem_cons_self x seen)

theorem mem_dedup (a : String) (l : List String) : a ∈ dedup l ↔ a ∈ l := by
  rw [dedup, mem_dedupAux]
  simp

theorem nodup_dedup (l : List String) : (dedup l).Nodup := nodup_dedupAux l []

theorem mem_removeFirstKeyById (l : List KeyRecord) (i : String) (x : KeyRecord)
    (h : x ∈ removeFirstKeyById l i) : x ∈ l := by
  induction l with
  | nil => exact absurd h (by simp [removeFirstKeyById])
  | cons r rs ih =>
    by_cases hr : r.id = i
    · rw [removeFirstKeyById, if_pos hr] at h
      exact List.mem_cons_of_mem r h
    · rw [removeFirstKeyById, if_neg hr] at h
      rcases List.mem_cons.mp h with h1 | h1
      · exact h1 ▸ List.mem_cons_self r rs
      · exact List.mem_cons_of_mem r (ih h1)

theorem not_mem_removeFirstKeyById_self (l : List KeyRecord) (rec : KeyRecord)
    (hnd : (l.map KeyRecord.id).Nodup) :
    rec ∉ removeFirstKeyById l rec.id := by
  induction l with
  | nil => simp [removeFirstKeyById]
  | cons r rs ih =>
    simp only [List.map_cons, List.nodup_cons] at hnd
    obtain ⟨hnotin, hnd⟩ := hnd
    by_cases hr : r.id = rec.id
    · rw [removeFirstKeyById, if_pos hr]
      intro hmem
      exact hnotin (hr ▸ List.mem_map_of_mem KeyRecord.id hmem)
    · rw [removeFirstKeyById, if_neg hr]
      intro hmem
      rcases List.mem_cons.mp hmem with h1 | h1
      · exact hr (h1 ▸ rfl)
      · exact ih hnd h1

theorem renameFirstById_of_absent (l : List KeyRecord) (i nm : String)
    (h : ∀ r ∈ l, r.id ≠ i) :
    renameFirstById l i nm = none := by
  induction l with
  | nil => rfl
  | cons r rs ih =>
    have hr : r.id ≠ i := h r (List.mem_cons_self r rs)
    rw [renameFirstById, if_neg hr, ih fun d hd => h d (List.mem_cons_of_mem r hd)]
    rfl

theorem renameFirstById_eq_map (l : List KeyRecord) (i nm : String)
    (hnd : (l.map KeyRecord.id).Nodup)
    (hex : ∃ r0 ∈ l, r0.id = i) :
    renameFirstById l i nm
      = some (l.map (fun r => if r.id = i then { r with name := nm } else r)) := by
  induction l with
  | nil => simp at hex
  | cons r rs ih =>
    simp only [List.map_cons, List.nodup_cons] at hnd
    obtain ⟨hnotin, hnd⟩ := hnd
    by_cases hr : r.id = i
    · rw [renameFirstById, if_pos hr]
      have htail : ∀ d ∈ rs, (if d.id = i then { d with name := nm } else d) = d := by
        intro d hd
        have : d.id ≠ i := fun he => hnotin (hr ▸ he ▸ List.mem_map_of_mem KeyRecord.id hd)
        simp [this]
      rw [List.map_cons, if_pos hr, List.map_congr_left htail, List.map_id']
    · obtain ⟨r0, hr0mem, hr0⟩ := hex
      rcases List.mem_cons.mp hr0mem with h1 | h1
      · exact absurd (h1 ▸ hr0) hr
      · rw [renameFirstById, if_neg hr, ih hnd ⟨r0, h1, hr0⟩]
        simp [if_neg hr]

/-! ## Claim theorems: credential store round-trips (C8) -/

/-- A store whose single persisted record's token also appears in the
environment list, used to refute the deletion half of claim C8. -/
def credDup : CredStore := ⟨"tok", [⟨"a", "label", "tok", "t0"⟩]⟩

/-- Claim C8 as stated is false: deleting the only record with id `"a"`
succeeds, yet its token `"tok"` is still produced by `getAllApiKeys`,
because the same token is also environment-sourced (the store does not
enforce token uniqueness across sources). -/
theorem C8_roundtrip_counterexample :
    (deleteKey credDup "a").2 = true
    ∧ "tok" ∈ getAllApiKeys (deleteKey credDup "a").1 := by
  exact ⟨by decide, by decide⟩

/-- Claim C8, amended: `create(name)` followed by `listAll()` contains the
newly generated token exactly once (unconditionally, thanks to the
deduplication); `delete(id)` followed by `listAll()` excludes the deleted
record's token provided the token is not also environment-sourced and no
other persisted record carries the same token (record ids unique). -/
theorem C8_roundtrip_amended (st st2 : CredStore)
    (id name key createdAt : String) (rec : KeyRecord)
    (hmem : rec ∈ st2.fileKeys)
    (hnd : (st2.fileKeys.map KeyRecord.id).Nodup)
    (henv : rec.key ∉ parseEnvKeys st2.envRaw)
    (huniq : ∀ r ∈ st2.fileKeys, r.key = rec.key → r = rec) :
    (getAllApiKeys (createKey st id name key createdAt)).count key = 1
    ∧ rec.key ∉ getAllApiKeys (deleteKey st2 rec.id).1 := by
  constructor
  · have hmemk : key ∈ getAllApiKeys (createKey st id name key createdAt) := by
      rw [getAllApiKeys, mem_dedup]
      refine List.mem_append_right _ ?_
      rw [createKey]
      simp
    exact List.count_eq_one_of_mem (nodup_dedup _) hmemk
  · have hdel : deleteKey st2 rec.id
        = ({ st2 with fileKeys := removeFirstKeyById st2.fileKeys rec.id }, true) := by
      rw [deleteKey, if_pos]
      exact List.any_eq_true.mpr ⟨rec, hmem, by simp⟩
    rw [hdel]
    intro hin
    rw [getAllApiKeys, mem_dedup] at hin
    rcases List.mem_append.mp hin with h | h
    · exact henv h
    · obtain ⟨r, hrmem, hrkey⟩ := List.mem_map.mp h
      have hrl : r ∈ st2.fileKeys := mem_removeFirstKeyById _ _ _ hrmem
      have : r = rec := huniq r hrl hrkey
      exact not_mem_removeFirstKeyById_self st2.fileKeys rec hnd (this ▸ hrmem)

/-- Witness for the amended C8 on concrete stores. -/
theorem C8_roundtrip_amended_witness :
    (getAllApiKeys (createKey ⟨"", []⟩ "i" "n" "K" "t")).count "K" = 1
    ∧ (⟨"a", "n", "K2", "t"⟩ : KeyRecord).key
        ∉ getAllApiKeys
            (deleteKey ⟨"", [⟨"a", "n", "K2", "t"⟩]⟩
              (⟨"a", "n", "K2", "t"⟩ : KeyRecord).id).1 :=
  C8_roundtrip_amended ⟨"", []⟩ ⟨"", [⟨"a", "n", "K2", "t"⟩]⟩ "i" "n" "K" "t"
    ⟨"a", "n", "K2", "t"⟩ (by decide) (by decide) (by decide) (by decide)

/-! ## Claim theorems: rename endpoint (C9) -/

/-- Claim C9: rename fails with an invalid-input error when the name is
empty after trimming (store unchanged), fails with a not-found error when
no persisted record has the id (store unchanged), and on success rewrites
exactly the matching record's display name (to the trimmed name), leaving
every id, key and createdAt — and every other record — unchanged. -/
theorem C9_rename_key (st : CredStore) (keyId name : String)
    (hnd : (st.fileKeys.map KeyRecord.id).Nodup) :
    (trimS name = "" → renameKey st keyId name = (st, RenameResult.invalidInput))
    ∧ (trimS name ≠ "" → (∀ r ∈ st.fileKeys, r.id ≠ keyId) →
        renameKey st keyId name = (st, RenameResult.notFound))
    ∧ (trimS name ≠ "" → (∃ r0 ∈ st.fileKeys, r0.id = keyId) →
        renameKey st keyId name
          = ({ st with fileKeys := st.fileKeys.map (fun r =>
                if r.id = keyId then { r with name := trimS name } else r) },
             RenameResult.renamed)
        ∧ (renameKey st keyId name).1.fileKeys.map KeyRecord.id
            = st.fileKeys.map KeyRecord.id
        ∧ (renameKey st keyId name).1.fileKeys.map KeyRecord.key
            = st.fileKeys.map KeyRecord.key
        ∧ (renameKey st keyId name).1.fileKeys.map KeyRecord.createdAt
            = st.fileKeys.map KeyRecord.createdAt) := by
  refine ⟨?_, ?_, ?_⟩
  · intro h
    rw [renameKey, if_pos h]
  · intro hne habs
    rw [renameKey, if_neg hne, renameFirstById_of_absent st.fileKeys keyId _ habs]
  · intro hne hex
    have hren : renameKey st keyId name
        = ({ st with fileKeys := st.fileKeys.map (fun r =>
              if r.id = keyId then { r with name := trimS name } else r) },
           RenameResult.renamed) := by
      rw [renameKey, if_neg hne, renameFirstById_eq_map st.fileKeys keyId _ hnd hex]
    refine ⟨hren, ?_, ?_, ?_⟩ <;>
      · rw [hren]
        simp only [List.map_map]
        refine List.map_congr_left ?_
        intro r _
        by_cases h : r.id = keyId <;> simp [h]

/-- Witness for C9 on a concrete store: renaming the only record with a
padded name stores its trimmed form and touches nothing else. -/
theorem C9_rename_key_witness :
    renameKey ⟨"", [⟨"a", "old", "K", "t"⟩]⟩ "a" " new "
      = ({ (⟨"", [⟨"a", "old", "K", "t"⟩]⟩ : CredStore) with
            fileKeys := (⟨"", [⟨"a", "old", "K", "t"⟩]⟩ : CredStore).fileKeys.map
              (fun r => if r.id = "a" then { r with name := trimS " new " } else r) },
         RenameResult.renamed) :=
  ((C9_rename_key ⟨"", [⟨"a", "old", "K", "t"⟩]⟩ "a" " new " (by decide)).2.2
    (by decide) (by decide)).1

/-! ## URL-matcher characterization lemmas -/

theorem stripLit_eq_some (p : List Char) : ∀ (s r : List Char),
    stripLit p s = some r ↔ s = p ++ r := by
  induction p with
  | nil =>
    intro s r
    simp [stripLit]
  | cons a ps ih =>
    intro s r
    cases s with
    | nil => simp [stripLit]
    | cons c cs =>
      simp only [stripLit, List.cons_append, List.cons.injEq]
      by_cases h : c = a
      · simp [h, ih cs r]
      · simp [h]

theorem readId_eq_some : ∀ (n : Nat) (s r : List Char),
    readId n s = some r
      ↔ ∃ pre, s = pre ++ r ∧ pre.length = n ∧ ∀ c ∈ pre, isIdChar c = true := by
  intro n
  induction n with
  | zero =>
    intro s r
    simp only [readId, Option.some.injEq]
    constructor
    · intro h
      exact ⟨[], by simpa using h, rfl, by simp⟩
    · rintro ⟨pre, hs, hlen, h⟩
      have hp : pre = [] := List.length_eq_zero.mp hlen
      subst hp
      simpa using hs
  | succ n ih =>
    intro s r
    cases s with
    | nil =>
      simp only [readId]
      constructor
      · intro h
        exact absurd h (by simp)
      · rintro ⟨pre, hs, hlen, h⟩
        have := List.append_eq_nil.mp hs.symm
        rw [this.1] at hlen
        simp at hlen
    | cons c cs =>
      by_cases hc : isIdChar c = true
      · simp only [readId]
        rw [if_pos hc, ih cs r]
        constructor
        · rintro ⟨pre, hcs, hlen, hall⟩
          refine ⟨c :: pre, by simp [hcs], by simp [hlen], ?_⟩
          intro d hd
          rcases List.mem_cons.mp hd with h1 | h1
          · exact h1 ▸ hc
          · exact hall d h1
        · rintro ⟨pre, hs, hlen, hall⟩
          cases pre with
          | nil => simp at hlen
          | cons p ps =>
            simp only [List.cons_append, List.cons.injEq] at hs
            obtain ⟨hcp, hcs⟩ := hs
            refine ⟨ps, hcs, by simpa using hlen,
              fun d hd => hall d (List.mem_cons_of_mem p hd)⟩
      · simp only [readId]
        rw [if_neg hc]
        constructor
        · intro h
          exact absurd h (by simp)
        · rintro ⟨pre, hs, hlen, hall⟩
          cases pre with
          | nil => simp at hlen
          | cons p ps =>
            simp only [List.cons_append, List.cons.injEq] at hs
            exact absurd (hs.1 ▸ hall p (List.mem_cons_self p ps)) hc

theorem tryStrip_eq_true (lit s : List Char) (k : List Char → Bool) :
    tryStrip lit s k = true ↔ ∃ r, s = lit ++ r ∧ k r = true := by
  unfold tryStrip
  cases h : stripLit lit s with
  | none =>
    constructor
    · intro hf
      exact absurd hf (by simp)
    · rintro ⟨r, hs, hk⟩
      rw [(stripLit_eq_some lit s r).mpr hs] at h
      simp at h
  | some r0 =>
    have hs0 := (stripLit_eq_some lit s r0).mp h
    constructor
    · intro hk
      exact ⟨r0, hs0, hk⟩
    · rintro ⟨r, hs, hk⟩
      have hrr : lit ++ r0 = lit ++ r := by rw [← hs0, ← hs]
      have hr : r0 = r := List.append_cancel_left hrr
      rw [hr]
      exact hk

theorem alt2_eq_true (l1 l2 s : List Char) (k : List Char → Bool) :
    (tryStrip l1 s k || tryStrip l2 s k) = true
      ↔ ∃ p r, (p = l1 ∨ p = l2) ∧ s = p ++ r ∧ k r = true := by
  rw [Bool.or_eq_true, tryStrip_eq_true, tryStrip_eq_true]
  constructor
  · rintro (⟨r, hs, hk⟩ | ⟨r, hs, hk⟩)
    · exact ⟨l1, r, Or.inl rfl, hs, hk⟩
    · exact ⟨l2, r, Or.inr rfl, hs, hk⟩
  · rintro ⟨p, r, hp | hp, hs, hk⟩
    · exact Or.inl ⟨r, hp ▸ hs, hk⟩
    · exact Or.inr ⟨r, hp ▸ hs, hk⟩

theorem altOptional_eq_true (w s : List Char) (k : List Char → Bool) :
    (tryStrip w s k || k s) = true
      ↔ ∃ p r, (p = w ∨ p = []) ∧ s = p ++ r ∧ k r = true := by
  rw [Bool.or_eq_true, tryStrip_eq_true]
  constructor
  · rintro (⟨r, hs, hk⟩ | hk)
    · exact ⟨w, r, Or.inl rfl, hs, hk⟩
    · exact ⟨[], s, Or.inr rfl, by simp, hk⟩
  · rintro ⟨p, r, hp | hp, hs, hk⟩
    · exact Or.inl ⟨r, hp ▸ hs, hk⟩
    · subst hp
      simp only [List.nil_append] at hs
      exact Or.inr (by rw [hs]; exact hk)

theorem idTailEnd_iff (s : List Char) : idTailEnd s = true ↔ IdList s := by
  constructor
  · intro h
    unfold idTailEnd at h
    cases hr : readId 11 s with
    | none => rw [hr] at h; simp at h
    | some r =>
      rw [hr] at h
      cases r with
      | nil =>
        obtain ⟨pre, hs, hlen, hall⟩ := (readId_eq_some 11 s []).mp hr
        rw [List.append_nil] at hs
        subst hs
        exact ⟨hlen, hall⟩
      | cons a t => simp at h
  · intro hid
    have hr : readId 11 s = some [] :=
      (readId_eq_some 11 s []).mpr ⟨s, (List.append_nil s).symm, hid.1, hid.2⟩
    unfold idTailEnd
    rw [hr]

theorem idTailAmp_iff (s : List Char) :
    idTailAmp s = true
      ↔ ∃ id q, s = id ++ q ∧ IdList id
          ∧ (q = [] ∨ ∃ t, q = '&' :: t ∧ ∀ c ∈ t, isDotChar c = true) := by
  constructor
  · intro h
    unfold idTailAmp at h
    cases hr : readId 11 s with
    | none => rw [hr] at h; simp at h
    | some r =>
      rw [hr] at h
      obtain ⟨pre, hs, hlen, hall⟩ := (readId_eq_some 11 s r).mp hr
      cases r with
      | nil => exact ⟨pre, [], hs, ⟨hlen, hall⟩, Or.inl rfl⟩
      | cons a t =>
        simp only [Bool.and_eq_true, beq_iff_eq] at h
        obtain ⟨ha, ht⟩ := h
        subst ha
        refine ⟨pre, '&' :: t, hs, ⟨hlen, hall⟩, Or.inr ⟨t, rfl, ?_⟩⟩
        exact fun c hc => List.all_eq_true.mp ht c hc
  · rintro ⟨id, q, hs, ⟨hlen, hall⟩, hq⟩
    have hr : readId 11 s = some q :=
      (readId_eq_some 11 s q).mpr ⟨id, hs, hlen, hall⟩
    unfold idTailAmp
    rw [hr]
    rcases hq with hq | ⟨t, hqt, ht⟩
    · subst hq; rfl
    · subst hqt
      simp only [Bool.and_eq_true, beq_iff_eq]
      exact ⟨trivial, List.all_eq_true.mpr ht⟩

theorem litIdCore_iff (lit r : List Char) :
    tryStrip lit r idTailEnd = true ↔ ∃ id, r = lit ++ id ∧ IdList id := by
  rw [tryStrip_eq_true]
  constructor
  · rintro ⟨r2, hr2, hend⟩
    exact ⟨r2, hr2, (idTailEnd_iff r2).mp hend⟩
  · rintro ⟨id, hr, hid⟩
    exact ⟨id, hr, (idTailEnd_iff id).mpr hid⟩

theorem watchCore_iff (r : List Char) :
    watchCore r = true
      ↔ ∃ id q, r = "youtube.com/watch?v=".data ++ (id ++ q) ∧ IdList id
          ∧ (q = [] ∨ ∃ t, q = '&' :: t ∧ ∀ c ∈ t, isDotChar c = true) := by
  unfold watchCore
  rw [tryStrip_eq_true]
  constructor
  · rintro ⟨r2, hr2, hamp⟩
    obtain ⟨id, q, hsplit, hid, hq⟩ := (idTailAmp_iff r2).mp hamp
    exact ⟨id, q, by rw [hr2, hsplit], hid, hq⟩
  · rintro ⟨id, q, hr, hid, hq⟩
    exact ⟨id ++ q, hr, (idTailAmp_iff _).mpr ⟨id, q, rfl, hid, hq⟩⟩

theorem matchWatch_iff (s : List Char) : matchWatch s = true ↔ SpecWatchAmp s := by
  unfold matchWatch SpecWatchAmp
  rw [alt2_eq_true]
  constructor
  · rintro ⟨sch, r, hsch, hs, hk⟩
    unfold watchAfterScheme at hk
    rw [altOptional_eq_true] at hk
    obtain ⟨w, r2, hw, hr, hcore⟩ := hk
    obtain ⟨id, q, hr2, hid, hq⟩ := (watchCore_iff r2).mp hcore
    exact ⟨sch, w, id, q, hsch, hw, hid, hq, by rw [hs, hr, hr2]⟩
  · rintro ⟨sch, w, id, q, hsch, hw, hid, hq, hs⟩
    refine ⟨sch, w ++ ("youtube.com/watch?v=".data ++ (id ++ q)), hsch, hs, ?_⟩
    unfold watchAfterScheme
    rw [altOptional_eq_true]
    exact ⟨w, "youtube.com/watch?v=".data ++ (id ++ q), hw, rfl,
      (watchCore_iff _).mpr ⟨id, q, rfl, hid, hq⟩⟩

theorem matchWatchStrict_iff (s : List Char) :
    matchWatchStrict s = true ↔ SpecWatchStrict s := by
  unfold matchWatchStrict SpecWatchStrict
  rw [alt2_eq_true]
  constructor
  · rintro ⟨sch, r, hsch, hs, hk⟩
    unfold watchStrictAfterScheme at hk
    rw [altOptional_eq_true] at hk
    obtain ⟨w, r2, hw, hr, hcore⟩ := hk
    unfold watchStrictCore at hcore
    obtain ⟨id, hr2, hid⟩ := (litIdCore_iff _ r2).mp hcore
    exact ⟨sch, w, id, hsch, hw, hid, by rw [hs, hr, hr2]⟩
  · rintro ⟨sch, w, id, hsch, hw, hid, hs⟩
    refine ⟨sch, w ++ ("youtube.com/watch?v=".data ++ id), hsch, hs, ?_⟩
    unfold watchStrictAfterScheme
    rw [altOptional_eq_true]
    refine ⟨w, "youtube.com/watch?v=".data ++ id, hw, rfl, ?_⟩
    unfold watchStrictCore
    exact (litIdCore_iff _ _).mpr ⟨id, rfl, hid⟩

theorem matchShort_iff (s : List Char) : matchShort s = true ↔ SpecShort s := by
  unfold matchShort SpecShort
  rw [alt2_eq_true]
  constructor
  · rintro ⟨sch, r, hsch, hs, hk⟩
    unfold shortCore at hk
    obtain ⟨id, hr, hid⟩ := (litIdCore_iff _ r).mp hk
    exact ⟨sch, id, hsch, hid, by rw [hs, hr]⟩
  · rintro ⟨sch, id, hsch, hid, hs⟩
    refine ⟨sch, "youtu.be/".data ++ id, hsch, hs, ?_⟩
    unfold shortCore
    exact (litIdCore_iff _ _).mpr ⟨id, rfl, hid⟩

theorem matchEmbed_iff (s : List Char) : matchEmbed s = true ↔ SpecEmbed s := by
  unfold matchEmbed SpecEmbed
  rw [alt2_eq_true]
  constructor
  · rintro ⟨sch, r, hsch, hs, hk⟩
    unfold embedAfterScheme at hk
    rw [altOptional_eq_true] at hk
    obtain ⟨w, r2, hw, hr, hcore⟩ := hk
    unfold embedCore at hcore
    obtain ⟨id, hr2, hid⟩ := (litIdCore_iff _ r2).mp hcore
    exact ⟨sch, w, id, hsch, hw, hid, by rw [hs, hr, hr2]⟩
  · rintro ⟨sch, w, id, hsch, hw, hid, hs⟩
    refine ⟨sch, w ++ ("youtube.com/embed/".data ++ id), hsch, hs, ?_⟩
    unfold embedAfterScheme
    rw [altOptional_eq_true]
    refine ⟨w, "youtube.com/embed/".data ++ id, hw, rfl, ?_⟩
    unfold embedCore
    exact (litIdCore_iff _ _).mpr ⟨id, rfl, hid⟩

theorem matchBare_iff (s : List Char) : matchBare s = true ↔ SpecBare s := by
  unfold matchBare SpecBare
  exact idTailEnd_iff s

theorem valid_iff_amended (u : String) :
    isValidYouTubeUrl u = true ↔ ClaimedAmended u := by
  unfold isValidYouTubeUrl ClaimedAmended
  by_cases h : u.length > 500
  · rw [if_pos h]
    constructor
    · intro hf
      exact absurd hf (by simp)
    · rintro ⟨hle, _⟩
      omega
  · rw [if_neg h]
    have hle : u.length ≤ 500 := Nat.le_of_not_lt h
    simp only [Bool.or_eq_true]
    rw [matchWatch_iff, matchShort_iff, matchEmbed_iff, matchBare_iff]
    tauto

theorem claimedStrict_iff (u : String) :
    ClaimedStrict u
      ↔ (matchWatchStrict u.data || matchShort u.data || matchEmbed u.data
          || matchBare u.data) = true := by
  unfold ClaimedStrict
  simp only [Bool.or_eq_true]
  rw [matchWatchStrict_iff, matchShort_iff, matchEmbed_iff, matchBare_iff]
  tauto

/-! ## Claim theorems: YouTube reference acceptance (C4) -/

/-- Claim C4 as stated is false: the watch-URL
`https://www.youtube.com/watch?v=abcdefghijk&t=10s` carries extra query
text beyond the `v` parameter, so it matches none of the claim's four
shapes, yet `isValidYouTubeUrl` accepts it (the regex permits `(&.*)?`)
and the play endpoint broadcasts it. -/
theorem C4_play_counterexample :
    isValidYouTubeUrl "https://www.youtube.com/watch?v=abcdefghijk&t=10s" = true
    ∧ (apiPlay (some "https://www.youtube.com/watch?v=abcdefghijk&t=10s")).1 = true
    ∧ ¬ ClaimedStrict "https://www.youtube.com/watch?v=abcdefghijk&t=10s" := by
  refine ⟨by decide, by decide, ?_⟩
  intro h
  rw [claimedStrict_iff] at h
  exact absurd h (by decide)

/-- Claim C4, amended: the play endpoint accepts a string iff it is at
most 500 characters and matches one of the four shapes, where the
watch-URL shape may additionally carry `&` followed by arbitrary further
query text (no line terminators) after the 11-character id; every other
string is rejected and nothing is broadcast. -/
theorem C4_play_accepts_iff (u : String) :
    ((apiPlay (some u)).1 = true ↔ ClaimedAmended u)
    ∧ ((apiPlay (some u)).1 = false → (apiPlay (some u)).2 = []) := by
  have hv := valid_iff_amended u
  constructor
  · unfold apiPlay
    simp only []
    by_cases h0 : u = ""
    · subst h0
      simp only [if_pos rfl]
      constructor
      · intro hf
        exact absurd hf (by decide)
      · intro hca
        rw [← hv] at hca
        exact absurd hca (by decide)
    · rw [if_neg h0]
      by_cases h1 : isValidYouTubeUrl u = true
      · have hlen : ¬ (u.length > 500) := by
          intro hgt
          unfold isValidYouTubeUrl at h1
          rw [if_pos hgt] at h1
          exact absurd h1 (by simp)
        rw [if_neg (by simp [h1]), if_neg hlen]
        constructor
        · intro _
          exact hv.mp h1
        · intro _
          rfl
      · have h1f : isValidYouTubeUrl u = false := by
          revert h1
          cases isValidYouTubeUrl u <;> simp
        rw [if_pos h1f]
        constructor
        · intro hf
          exact absurd hf (by decide)
        · intro hca
          rw [← hv] at hca
          exact absurd hca (by simp [h1f])
  · unfold apiPlay
    simp only []
    by_cases h0 : u = ""
    · subst h0
      simp
    · rw [if_neg h0]
      by_cases h1 : isValidYouTubeUrl u = false
      · rw [if_pos h1]
        intro _
        rfl
      · rw [if_neg h1]
        by_cases h2 : u.length > 500
        · rw [if_pos h2]
          intro _
          rfl
        · rw [if_neg h2]
          intro hf
          exact absurd hf (by simp)

/-- Witness for the amended C4: a rejected string is not broadcast. -/
theorem C4_play_accepts_iff_witness :
    (apiPlay (some "not a video")).2 = [] :=
  (C4_play_accepts_iff "not a video").2 (by decide)

end Liveboard

